import Mathlib

set_option linter.unusedVariables false

/-!
Shallow embedding of `src/BoundedString.hpp` (class `bounded_basic_string`).

An instance of `bounded_basic_string<CharT, UpperBound>` is modelled by its
observable contents, a `List α` (the backing `std::basic_string` state), with
the template parameter `UpperBound` passed explicitly as `B : Nat`.  Exceptions
are modelled by the type `Err`; a mutating member function becomes a Lean
function returning `Option Err × List α`: the first component is the raised
condition (`none` on success) and the second component is the observable
contents of the instance after the call returns or after the exception
propagates.  This keeps the state visible even for the member functions that
delegate to the base class first and only check the bound afterwards.
Constructors have no prior state and return `Except Err (List α)`.

Backing-store (std::basic_string) semantics used below: `assign`, `insert` and
`substr` with a position argument throw `std::out_of_range` when the position
exceeds the relevant length, before any mutation; a substring request of
`count` characters starting at `pos` realizes `min count (length - pos)`
characters, which in list terms is `(s.drop pos).take count`.
-/

/-- The message of every `std::length_error` thrown in BoundedString.hpp. -/
def exceededMsg : String := "Exceeded upper bound"

/-- Error conditions surfaced by the modelled member functions:
`lengthError msg` models a thrown `std::length_error(msg)` (the
CapacityExceeded condition of the spec), `outOfRange` models a thrown
`std::out_of_range` coming from the backing `std::basic_string`. -/
inductive Err where
  | lengthError (msg : String) : Err
  | outOfRange : Err
  deriving DecidableEq

variable {α : Type}

/-- Model of `operator=(const bounded_basic_string &)` (src lines 316-321) and
`operator=(const bounded_basic_string &&)` (src lines 331-337): both delegate
to the base assignment with no bound check at all, so the contents simply
become those of `str`. -/
def op_assign_same (B : ℕ) (s str : List α) : Option Err × List α :=
  (none, str)

/-- Model of `operator=(CharT ch)` (src lines 364-371): no length check
(the source comment says none is required since UpperBound > 0); delegates
`Base::operator=(ch)`, which replaces the contents with the single
character `ch`. -/
def op_assign_char (B : ℕ) (s : List α) (ch : α) : Option Err × List α :=
  (none, [ch])

/-- Model of the checked whole-operand replacements, which all first compare
the operand length against `UpperBound` and only then delegate to the base:
`operator=(const CharT *)` (src 347-355), `operator=(initializer_list)`
(src 381-389), `assign(const bounded_basic_string &)` (src 440-448),
`assign(bounded_basic_string &&)` (src 480-489), `assign(const CharT *, count)`
(src 501-509), `assign(const CharT *)` (src 519-527) and
`assign(initializer_list)` (src 560-568).  The operand (the pointed-to
characters, the list, or the other string) is modelled by the list `t`. -/
def assign_checked (B : ℕ) (s t : List α) : Option Err × List α :=
  if t.length > B then (some (Err.lengthError exceededMsg), s)
  else (none, t)

/-- Model of `assign(size_type count, CharT ch)` (src lines 422-430): checks
`count > UpperBound` first, then delegates `Base::assign(count, ch)`, which
replaces the contents with `count` copies of `ch`. -/
def assign_count (B : ℕ) (s : List α) (count : ℕ) (ch : α) : Option Err × List α :=
  if count > B then (some (Err.lengthError exceededMsg), s)
  else (none, List.replicate count ch)

/-- Model of the commit-then-check whole-operand replacements, which delegate
to the base FIRST and compare `size()` against `UpperBound` only afterwards:
`operator=(const StringViewLike &)` (src 400-411),
`assign(InputIterator, InputIterator)` (src 541-550) and
`assign(const StringViewLike &)` (src 582-590).  The operand characters are
the list `t`; on the throwing path the contents have already been replaced
by `t` when the exception propagates. -/
def op_assign_sv (B : ℕ) (s t : List α) : Option Err × List α :=
  if t.length > B then (some (Err.lengthError exceededMsg), t)
  else (none, t)

/-- Model of `assign(const bounded_basic_string & str, size_type pos,
size_type count)` (src lines 460-470) and of the analogous sliced
string-view form (src 607-617): both delegate `Base::assign(str, pos, count)`
FIRST and compare the resulting size against `UpperBound` only afterwards.
The base assign throws `out_of_range` (before mutating) when
`pos > str.length`; otherwise it replaces the contents with the realized
slice `(str.drop pos).take count`.  On the bound-throwing path the contents
have already been replaced when the exception propagates. -/
def assign_substr (B : ℕ) (s str : List α) (pos count : ℕ) : Option Err × List α :=
  if pos > str.length then (some Err.outOfRange, s)
  else if ((str.drop pos).take count).length > B then
    (some (Err.lengthError exceededMsg), (str.drop pos).take count)
  else (none, (str.drop pos).take count)

/-- Model of `reserve(size_type new_cap)` (src lines 638-645): checks
`new_cap > UpperBound`, then delegates `Base::reserve(new_cap)`, which never
changes the contents. -/
def reserve (B : ℕ) (s : List α) (new_cap : ℕ) : Option Err × List α :=
  if new_cap > B then (some (Err.lengthError exceededMsg), s)
  else (none, s)

/-- Model of `swap(bounded_basic_string & other)` (src lines 684-692): the
guard compares the length of `other` against `UpperBound` with `>=` and
throws when it holds (the source writes the access as `other -> length()`;
the evident member access on the reference is modelled); only otherwise does
it delegate `Base::swap(other)`, exchanging the two contents.  The result
pairs the raised condition with the post-call contents of `(this, other)`.
The member is declared noexcept in the source even though its body throws. -/
def swap (B : ℕ) (s other : List α) : Option Err × (List α × List α) :=
  if other.length ≥ B then (some (Err.lengthError exceededMsg), (s, other))
  else (none, (other, s))

/-- Model of `push_back(CharT ch)` (src lines 698-705): throws when
`length() >= UpperBound`, otherwise delegates `Base::push_back(ch)`,
appending `ch`. -/
def push_back (B : ℕ) (s : List α) (ch : α) : Option Err × List α :=
  if s.length ≥ B then (some (Err.lengthError exceededMsg), s)
  else (none, s ++ [ch])

/-- Model of `insert(size_type index, size_type count, CharT ch)`
(src lines 711-721) and of the iterator form `insert(const_iterator, count,
ch)` (src 805-815, with the iterator rendered as its index) and of the
single-character iterator form `insert(const_iterator, ch)` (src 790-799,
whose guard `length() >= UpperBound` coincides with this guard at
`count = 1`): checks `length() + count > UpperBound` first, then delegates
to the base insert, which throws `out_of_range` when `index > length()`
and otherwise inserts `count` copies of `ch` at `index`. -/
def insert_count_ch (B : ℕ) (s : List α) (index count : ℕ) (ch : α) :
    Option Err × List α :=
  if s.length + count > B then (some (Err.lengthError exceededMsg), s)
  else if index > s.length then (some Err.outOfRange, s)
  else (none, s.take index ++ List.replicate count ch ++ s.drop index)

/-- Model of the guarded list-operand inserts, which all compute the operand
length first, compare `length() + operand length > UpperBound`, and only then
delegate to the base insert: `insert(index, const CharT *)` (src 727-736),
`insert(index, const CharT *, count)` (src 742-752), `insert(index, const
bounded_basic_string &)` (src 758-767), `insert(const_iterator, InputIterator,
InputIterator)` (src 821-834) and `insert(const_iterator, initializer_list)`
(src 840-849), with iterator positions rendered as indices.  The operand
characters are the list `t`; the base insert throws `out_of_range` when
`index > length()`. -/
def insert_list (B : ℕ) (s : List α) (index : ℕ) (t : List α) :
    Option Err × List α :=
  if s.length + t.length > B then (some (Err.lengthError exceededMsg), s)
  else if index > s.length then (some Err.outOfRange, s)
  else (none, s.take index ++ t ++ s.drop index)

/-- Model of `insert(size_type index, const bounded_basic_string & str,
size_type index_str, size_type count)` (src lines 773-784): the guard
evaluates `str.substr(index_str, count).length()` — so `substr` throws
`out_of_range` when `index_str > str.length` before the bound is compared —
then checks `length()` plus that realized slice length against `UpperBound`,
and only then delegates to the base insert, which throws `out_of_range`
when `index > length()`. -/
def insert_substr (B : ℕ) (s : List α) (index : ℕ) (str : List α)
    (index_str count : ℕ) : Option Err × List α :=
  if index_str > str.length then (some Err.outOfRange, s)
  else if s.length + ((str.drop index_str).take count).length > B then
    (some (Err.lengthError exceededMsg), s)
  else if index > s.length then (some Err.outOfRange, s)
  else (none, s.take index ++ (str.drop index_str).take count ++ s.drop index)

/-- Model of the commit-then-check template insert `insert(size_type pos,
const T & t)` (src lines 855-868): delegates `Base::insert(pos, t)` FIRST
(which throws `out_of_range`, before mutating, when `pos > length()`) and
compares `length()` against `UpperBound` only afterwards; on the throwing
path the insertion has already happened when the exception propagates. -/
def insert_commit (B : ℕ) (s : List α) (index : ℕ) (t : List α) :
    Option Err × List α :=
  if index > s.length then (some Err.outOfRange, s)
  else if (s.take index ++ t ++ s.drop index).length > B then
    (some (Err.lengthError exceededMsg), s.take index ++ t ++ s.drop index)
  else (none, s.take index ++ t ++ s.drop index)

/-- Model of the commit-then-check sliced template insert `insert(size_type
index, const T & t, size_type index_str, size_type count)` (src lines
874-889): the base insert range-checks `index` against `length()` and
`index_str` against the view length before mutating, inserts the realized
slice `(t.drop index_str).take count`, and only afterwards is `length()`
compared against `UpperBound`. -/
def insert_substr_commit (B : ℕ) (s : List α) (index : ℕ) (t : List α)
    (index_str count : ℕ) : Option Err × List α :=
  if index > s.length then (some Err.outOfRange, s)
  else if index_str > t.length then (some Err.outOfRange, s)
  else if (s.take index ++ (t.drop index_str).take count ++ s.drop index).length > B then
    (some (Err.lengthError exceededMsg),
      s.take index ++ (t.drop index_str).take count ++ s.drop index)
  else (none, s.take index ++ (t.drop index_str).take count ++ s.drop index)

/-- Model of `clear()` (src line 673, forwarded unchanged from the base):
erases all characters, never throws. -/
def clear_contents (B : ℕ) (s : List α) : Option Err × List α :=
  (none, [])

/-- Model of `pop_back()` (src line 675, forwarded unchanged from the base):
removes the last character (calling it on an empty string is undefined in
the base; the model removes nothing there), never throws. -/
def pop_back (B : ℕ) (s : List α) : Option Err × List α :=
  (none, s.dropLast)

/-- Model of `erase(size_type pos, size_type count)` (src line 674, forwarded
unchanged from the base): throws `out_of_range` when `pos > length()`,
otherwise removes `min count (length() - pos)` characters starting at
`pos`. -/
def erase_range (B : ℕ) (s : List α) (pos count : ℕ) : Option Err × List α :=
  if pos > s.length then (some Err.outOfRange, s)
  else (none, s.take pos ++ s.drop (pos + count))

/-- Model of the move constructor `bounded_basic_string(bounded_basic_string
&&, const Allocator &)` (src lines 222-231): the base is constructed from the
moved source, after which the new size equals the former length of `other`,
and the constructor body then compares `size() > UpperBound` and throws on
violation (the member is declared noexcept in the source). -/
def moveCtor (B : ℕ) (other : List α) : Except Err (List α) :=
  if other.length > B then Except.error (Err.lengthError exceededMsg)
  else Except.ok other

/-- Model of the substring constructor `bounded_basic_string(const
bounded_basic_string & other, size_type pos, size_type count, const
Allocator &)` (src lines 126-136): the body forwards only `(other, pos,
alloc)` to the base — the `count` argument is NOT passed on — so the base
throws `out_of_range` when `pos > other.length` and otherwise takes the
suffix `[pos, other.size())`; the body then compares `size() > UpperBound`. -/
def substrCtor (B : ℕ) (other : List α) (pos count : ℕ) : Except Err (List α) :=
  if pos > other.length then Except.error Err.outOfRange
  else if (other.drop pos).length > B then
    Except.error (Err.lengthError exceededMsg)
  else Except.ok (other.drop pos)

/-- The public mutating surface of `bounded_basic_string`, one constructor
per modelled member-function shape (operands that are pointed-to buffers,
initializer lists, iterator ranges or string views are rendered as the list
they denote; iterator positions as indices).  `opAssignSame` covers the two
unchecked same-bound assignment operators, whose operand is itself an
instance of the same specialization. -/
inductive Op (α : Type) where
  | opAssignSame (str : List α)
  | opAssignChar (ch : α)
  | assignChecked (t : List α)
  | assignCount (count : ℕ) (ch : α)
  | assignCommit (t : List α)
  | assignSubstr (str : List α) (pos count : ℕ)
  | reserveOp (new_cap : ℕ)
  | swapWith (other : List α)
  | pushBack (ch : α)
  | insertCountCh (index count : ℕ) (ch : α)
  | insertList (index : ℕ) (t : List α)
  | insertSubstr (index : ℕ) (str : List α) (index_str count : ℕ)
  | insertCommit (index : ℕ) (t : List α)
  | insertSubstrCommit (index : ℕ) (t : List α) (index_str count : ℕ)
  | clearOp
  | popBackOp
  | eraseOp (pos count : ℕ)

/-- An operand that is itself an instance of the same bound-`B` specialization
satisfies invariant I1; this records that side condition for the one operation
shape that performs no check of its own (the same-bound assignment
operators).  Every other shape either checks or cannot grow past the bound. -/
def Op.okOperands (B : ℕ) : Op α → Bool
  | .opAssignSame str => decide (str.length ≤ B)
  | _ => true

/-- Dispatch of one modelled public mutating operation on the instance
contents `s` of a bound-`B` specialization. -/
def applyOp (B : ℕ) (s : List α) : Op α → Option Err × List α
  | .opAssignSame str => op_assign_same B s str
  | .opAssignChar ch => op_assign_char B s ch
  | .assignChecked t => assign_checked B s t
  | .assignCount count ch => assign_count B s count ch
  | .assignCommit t => op_assign_sv B s t
  | .assignSubstr str pos count => assign_substr B s str pos count
  | .reserveOp new_cap => reserve B s new_cap
  | .swapWith other => ((swap B s other).1, ((swap B s other).2).1)
  | .pushBack ch => push_back B s ch
  | .insertCountCh index count ch => insert_count_ch B s index count ch
  | .insertList index t => insert_list B s index t
  | .insertSubstr index str index_str count => insert_substr B s index str index_str count
  | .insertCommit index t => insert_commit B s index t
  | .insertSubstrCommit index t index_str count => insert_substr_commit B s index t index_str count
  | .clearOp => clear_contents B s
  | .popBackOp => pop_back B s
  | .eraseOp pos count => erase_range B s pos count

/-- Run a sequence of public operations in which each operation must complete
successfully: the result is `some` of the final contents when no operation
raises, and `none` as soon as any operation raises.  A prefix of a sequence
is itself a sequence, so a statement about every successful `runOk` covers
the state after every operation of a longer run. -/
def runOk (B : ℕ) (s : List α) : List (Op α) → Option (List α)
  | [] => some s
  | op :: ops =>
    match applyOp B s op with
    | (none, s2) => runOk B s2 ops
    | (some _, _) => none

/-! Invariant-preservation lemmas: each successful modelled operation leaves
the contents no longer than the bound. -/

theorem op_assign_same_preserves (B : ℕ) (s str : List α)
    (hstr : str.length ≤ B) (h : (op_assign_same B s str).1 = none) :
    (op_assign_same B s str).2.length ≤ B := by
  simpa [op_assign_same] using hstr

theorem op_assign_char_preserves (B : ℕ) (hB : 0 < B) (s : List α) (ch : α)
    (h : (op_assign_char B s ch).1 = none) :
    (op_assign_char B s ch).2.length ≤ B := by
  simp [op_assign_char]
  omega

theorem assign_checked_preserves (B : ℕ) (s t : List α)
    (h : (assign_checked B s t).1 = none) :
    (assign_checked B s t).2.length ≤ B := by
  by_cases hc : t.length > B
  · simp [assign_checked, hc] at h
  · simp [assign_checked, hc]
    omega

theorem assign_count_preserves (B : ℕ) (s : List α) (count : ℕ) (ch : α)
    (h : (assign_count B s count ch).1 = none) :
    (assign_count B s count ch).2.length ≤ B := by
  by_cases hc : count > B
  · simp [assign_count, hc] at h
  · simp [assign_count, hc]
    omega

theorem op_assign_sv_preserves (B : ℕ) (s t : List α)
    (h : (op_assign_sv B s t).1 = none) :
    (op_assign_sv B s t).2.length ≤ B := by
  by_cases hc : t.length > B
  · simp [op_assign_sv, hc] at h
  · simp [op_assign_sv, hc]
    omega

theorem assign_substr_preserves (B : ℕ) (s str : List α) (pos count : ℕ)
    (h : (assign_substr B s str pos count).1 = none) :
    (assign_substr B s str pos count).2.length ≤ B := by
  unfold assign_substr at h ⊢
  split at h
  · simp at h
  · split at h
    · simp at h
    · rename_i h1 h2
      rw [if_neg h1, if_neg h2]
      simp at h2 ⊢
      omega

theorem reserve_preserves (B : ℕ) (s : List α) (new_cap : ℕ)
    (hs : s.length ≤ B) (h : (reserve B s new_cap).1 = none) :
    (reserve B s new_cap).2.length ≤ B := by
  by_cases hc : new_cap > B
  · simp [reserve, hc] at h
  · simpa [reserve, hc] using hs

theorem swap_preserves (B : ℕ) (s other : List α)
    (h : (swap B s other).1 = none) :
    ((swap B s other).2).1.length ≤ B := by
  by_cases hc : other.length ≥ B
  · simp [swap, hc] at h
  · simp [swap, hc]
    omega

theorem push_back_preserves (B : ℕ) (s : List α) (ch : α)
    (h : (push_back B s ch).1 = none) :
    (push_back B s ch).2.length ≤ B := by
  by_cases hc : s.length ≥ B
  · simp [push_back, hc] at h
  · simp [push_back, hc]
    omega

theorem insert_count_ch_preserves (B : ℕ) (s : List α) (index count : ℕ)
    (ch : α) (h : (insert_count_ch B s index count ch).1 = none) :
    (insert_count_ch B s index count ch).2.length ≤ B := by
  by_cases h1 : s.length + count > B
  · simp [insert_count_ch, h1] at h
  · by_cases h2 : index > s.length
    · simp [insert_count_ch, h1, h2] at h
    · simp [insert_count_ch, h1, h2]
      omega

theorem insert_list_preserves (B : ℕ) (s : List α) (index : ℕ) (t : List α)
    (h : (insert_list B s index t).1 = none) :
    (insert_list B s index t).2.length ≤ B := by
  by_cases h1 : s.length + t.length > B
  · simp [insert_list, h1] at h
  · by_cases h2 : index > s.length
    · simp [insert_list, h1, h2] at h
    · simp [insert_list, h1, h2]
      omega

theorem insert_substr_preserves (B : ℕ) (s : List α) (index : ℕ)
    (str : List α) (index_str count : ℕ)
    (h : (insert_substr B s index str index_str count).1 = none) :
    (insert_substr B s index str index_str count).2.length ≤ B := by
  unfold insert_substr at h ⊢
  split at h
  · simp at h
  · split at h
    · simp at h
    · split at h
      · simp at h
      · rename_i h1 h2 h3
        rw [if_neg h1, if_neg h2, if_neg h3]
        simp at h2 ⊢
        omega

theorem insert_commit_preserves (B : ℕ) (s : List α) (index : ℕ) (t : List α)
    (h : (insert_commit B s index t).1 = none) :
    (insert_commit B s index t).2.length ≤ B := by
  unfold insert_commit at h ⊢
  split at h
  · simp at h
  · split at h
    · simp at h
    · rename_i h1 h2
      rw [if_neg h1, if_neg h2]
      simp at h2 ⊢
      omega

theorem insert_substr_commit_preserves (B : ℕ) (s : List α) (index : ℕ)
    (t : List α) (index_str count : ℕ)
    (h : (insert_substr_commit B s index t index_str count).1 = none) :
    (insert_substr_commit B s index t index_str count).2.length ≤ B := by
  unfold insert_substr_commit at h ⊢
  split at h
  · simp at h
  · split at h
    · simp at h
    · split at h
      · simp at h
      · rename_i h1 h2 h3
        rw [if_neg h1, if_neg h2, if_neg h3]
        simp at h3 ⊢
        omega

theorem clear_contents_preserves (B : ℕ) (s : List α)
    (h : (clear_contents B s).1 = none) :
    (clear_contents B s).2.length ≤ B := by
  simp [clear_contents]

theorem pop_back_preserves (B : ℕ) (s : List α) (hs : s.length ≤ B)
    (h : (pop_back B s).1 = none) : (pop_back B s).2.length ≤ B := by
  simp [pop_back]
  omega

theorem erase_range_preserves (B : ℕ) (s : List α) (pos count : ℕ)
    (hs : s.length ≤ B) (h : (erase_range B s pos count).1 = none) :
    (erase_range B s pos count).2.length ≤ B := by
  by_cases h1 : pos > s.length
  · simp [erase_range, h1] at h
  · simp [erase_range, h1]
    omega

/-- One successful public operation on contents satisfying I1, with any
same-bound operand satisfying I1 itself, yields contents satisfying I1. -/
theorem applyOp_preserves (B : ℕ) (hB : 0 < B) (s : List α) (op : Op α)
    (hs : s.length ≤ B) (hop : op.okOperands B = true)
    (h : (applyOp B s op).1 = none) : (applyOp B s op).2.length ≤ B := by
  cases op with
  | opAssignSame str =>
    exact op_assign_same_preserves B s str (by simpa [Op.okOperands] using hop) h
  | opAssignChar ch => exact op_assign_char_preserves B hB s ch h
  | assignChecked t => exact assign_checked_preserves B s t h
  | assignCount count ch => exact assign_count_preserves B s count ch h
  | assignCommit t => exact op_assign_sv_preserves B s t h
  | assignSubstr str pos count => exact assign_substr_preserves B s str pos count h
  | reserveOp new_cap => exact reserve_preserves B s new_cap hs h
  | swapWith other => exact swap_preserves B s other h
  | pushBack ch => exact push_back_preserves B s ch h
  | insertCountCh index count ch => exact insert_count_ch_preserves B s index count ch h
  | insertList index t => exact insert_list_preserves B s index t h
  | insertSubstr index str index_str count =>
    exact insert_substr_preserves B s index str index_str count h
  | insertCommit index t => exact insert_commit_preserves B s index t h
  | insertSubstrCommit index t index_str count =>
    exact insert_substr_commit_preserves B s index t index_str count h
  | clearOp => exact clear_contents_preserves B s h
  | popBackOp => exact pop_back_preserves B s hs h
  | eraseOp pos count => exact erase_range_preserves B s pos count hs h

/-- Auxiliary induction: a successful run of public operations starting from
contents satisfying I1, with same-bound operands satisfying I1, ends in
contents satisfying I1 (and since every prefix of a run is a run, this covers
the state after every operation of the sequence). -/
theorem runOk_preserves (B : ℕ) (hB : 0 < B) :
    ∀ (ops : List (Op α)) (s t : List α),
      (∀ op ∈ ops, op.okOperands B = true) →
      s.length ≤ B → runOk B s ops = some t → t.length ≤ B := by
  intro ops
  induction ops with
  | nil =>
    intro s t _ hs hrun
    simp [runOk] at hrun
    exact hrun ▸ hs
  | cons op ops ih =>
    intro s t hops hs hrun
    rcases hap : applyOp B s op with ⟨e, s2⟩
    cases e with
    | none =>
      have hsucc : (applyOp B s op).1 = none := by rw [hap]
      have hs2 : s2.length ≤ B := by
        have hp := applyOp_preserves B hB s op hs
          (hops op (List.mem_cons_self op ops)) hsucc
        rw [hap] at hp
        exact hp
      have hrun2 : runOk B s2 ops = some t := by
        simp only [runOk, hap] at hrun
        exact hrun
      exact ih s2 t (fun o ho => hops o (List.mem_cons_of_mem op ho)) hs2 hrun2
    | some err =>
      simp [runOk, hap] at hrun

/-- C2: bound invariant I1: for every bound B > 0 and every sequence of
public operations on an instance of bound B in which each operation
completes successfully (runOk returns some final contents; any same-bound
operand itself satisfies I1), the length stays at most B — and since this
holds for arbitrary sequences it holds after every operation of any longer
sequence, each prefix being such a sequence. -/
theorem length_le_bound_after_successful_sequences (B : ℕ) (hB : 0 < B)
    (s t : List α) (ops : List (Op α)) (hs : s.length ≤ B)
    (hops : ∀ op ∈ ops, op.okOperands B = true)
    (hrun : runOk B s ops = some t) : t.length ≤ B :=
  runOk_preserves B hB ops s t hops hs hrun

theorem length_le_bound_after_successful_sequences_witness :
    (['a', 'b'] : List Char).length ≤ 5 :=
  length_le_bound_after_successful_sequences 5 (by decide) [] ['a', 'b']
    [Op.pushBack 'a', Op.pushBack 'b'] (by decide) (by decide) (by decide)

/-- C5: move construction from a valid same-bound source (length at most the
bound, which invariant I1 gives every instance) never raises: the bound
check in the body (src 222-231) can never fire, the construction succeeds
and the new instance holds the former contents of the source. -/
theorem move_ctor_never_raises_for_valid_source (B : ℕ) (other : List α)
    (h : other.length ≤ B) : moveCtor B other = Except.ok other := by
  have hc : ¬ other.length > B := by omega
  simp [moveCtor, hc]

theorem move_ctor_never_raises_for_valid_source_witness :
    moveCtor 5 (['h', 'i'] : List Char) = Except.ok ['h', 'i'] :=
  move_ctor_never_raises_for_valid_source 5 ['h', 'i'] (by decide)

/-- C6: on a valid instance (length at most the bound, with bound positive),
push_back raises CapacityExceeded exactly when the length equals the bound;
on that failing case the contents are unchanged; at length bound - 1 it
succeeds, appends the character and yields length equal to the bound. -/
theorem push_back_raises_iff_full (B : ℕ) (s : List α) (ch : α)
    (hB : 0 < B) (hs : s.length ≤ B) :
    ((push_back B s ch).1 = some (Err.lengthError exceededMsg) ↔ s.length = B)
    ∧ (s.length = B → push_back B s ch = (some (Err.lengthError exceededMsg), s))
    ∧ (s.length = B - 1 →
        (push_back B s ch).1 = none ∧ (push_back B s ch).2 = s ++ [ch]
        ∧ (push_back B s ch).2.length = B) := by
  by_cases hc : s.length ≥ B
  · have he : s.length = B := le_antisymm hs hc
    refine ⟨by simp [push_back, hc, he], fun _ => by simp [push_back, hc],
      fun hlt => by omega⟩
  · refine ⟨by simp [push_back, hc]; omega, fun he => absurd he (by omega),
      fun he => ?_⟩
    simp [push_back, hc]
    omega

theorem push_back_raises_iff_full_witness :
    (push_back 5 (['h', 'e', 'l', 'l', 'o'] : List Char) 'x').1
      = some (Err.lengthError exceededMsg) :=
  ((push_back_raises_iff_full 5 ['h', 'e', 'l', 'l', 'o'] 'x' (by decide)
      (by decide)).1).mpr (by decide)

/-- C7: assign(count, ch) raises CapacityExceeded exactly when count exceeds
the bound, leaving the previous contents readable unchanged on that failing
case; for count at most the bound (in particular count equal to the bound)
it succeeds and the contents become count copies of ch. -/
theorem assign_count_raises_iff_over_bound (B : ℕ) (s : List α) (count : ℕ)
    (ch : α) :
    ((assign_count B s count ch).1 = some (Err.lengthError exceededMsg) ↔ B < count)
    ∧ (B < count → (assign_count B s count ch).2 = s)
    ∧ (count ≤ B →
        (assign_count B s count ch).1 = none
        ∧ (assign_count B s count ch).2 = List.replicate count ch
        ∧ (assign_count B s count ch).2.length = count
        ∧ ∀ c ∈ (assign_count B s count ch).2, c = ch) := by
  by_cases hc : count > B
  · exact ⟨by simp [assign_count, hc], fun _ => by simp [assign_count, hc],
      fun hle => absurd hle (by omega)⟩
  · refine ⟨by simp [assign_count, hc], fun hgt => absurd hgt (by omega),
      fun hle => ?_⟩
    simp [assign_count, hc, List.mem_replicate]

theorem assign_count_raises_iff_over_bound_witness :
    (assign_count 5 (['a', 'b', 'c'] : List Char) 5 'x').1 = none :=
  ((assign_count_raises_iff_over_bound 5 ['a', 'b', 'c'] 5 'x').2.2 (by decide)).1

/-- C8: reserve(new_cap) raises CapacityExceeded exactly when new_cap exceeds
the bound and never changes the contents; in particular reserve at exactly
the bound succeeds and reserve at bound + 1 raises. -/
theorem reserve_raises_iff_over_bound_and_preserves_contents (B : ℕ)
    (s : List α) (new_cap : ℕ) :
    ((reserve B s new_cap).1 = some (Err.lengthError exceededMsg) ↔ B < new_cap)
    ∧ (reserve B s new_cap).2 = s
    ∧ (reserve B s B).1 = none
    ∧ (reserve B s (B + 1)).1 = some (Err.lengthError exceededMsg) := by
  refine ⟨?_, ?_, by simp [reserve], by simp [reserve]⟩
  · by_cases hc : new_cap > B <;> simp [reserve, hc]
  · by_cases hc : new_cap > B <;> simp [reserve, hc]

/-- C10: the single-character assignment operator performs no bound check and
never raises: for any bound, any prior contents and any character it leaves
the instance holding exactly that one character, of length 1, which respects
the bound whenever the bound is positive. -/
theorem char_assignment_always_yields_singleton (B : ℕ) (s : List α) (ch : α) :
    (op_assign_char B s ch).1 = none
    ∧ (op_assign_char B s ch).2 = [ch]
    ∧ (op_assign_char B s ch).2.length = 1
    ∧ (0 < B → (op_assign_char B s ch).2.length ≤ B) := by
  refine ⟨rfl, rfl, rfl, fun hB => ?_⟩
  simp [op_assign_char]
  omega

theorem char_assignment_always_yields_singleton_witness :
    (op_assign_char 5 (['a', 'b'] : List Char) 'z').2.length ≤ 5 :=
  (char_assignment_always_yields_singleton 5 ['a', 'b'] 'z').2.2.2 (by decide)

/-- C1: the claimed strong failure safety fails on the code: the string-view
assignment operator (src 400-411) commits the new contents to the backing
store before checking the bound, so after it raises CapacityExceeded on a
bound-3 instance holding abc, the instance reads the six-character operand
rather than its former contents (the sliced assign of src 460-470 follows
the same commit-then-check ordering). -/
theorem strong_failure_safety_violated_at_sv_assignment :
    (op_assign_sv 3 (['a', 'b', 'c'] : List Char) ['a', 'b', 'c', 'd', 'e', 'f']).1
      = some (Err.lengthError exceededMsg)
    ∧ (op_assign_sv 3 (['a', 'b', 'c'] : List Char) ['a', 'b', 'c', 'd', 'e', 'f']).2
      ≠ ['a', 'b', 'c'] := by
  decide

/-- C3: the substring constructor ignores its count argument (src 126-136
forwards only the source and pos to the base), so from the bound-5 source
hello with pos 1 and count 2 it builds the four-character suffix ello,
whereas the claim (and the doc comment of the constructor itself) requires
length min 2 (5 - 1) = 2. -/
theorem substring_ctor_ignores_count_at_hello :
    substrCtor 5 (['h', 'e', 'l', 'l', 'o'] : List Char) 1 2
      = Except.ok ['e', 'l', 'l', 'o']
    ∧ (['e', 'l', 'l', 'o'] : List Char).length
      ≠ min 2 ((['h', 'e', 'l', 'l', 'o'] : List Char).length - 1) :=
  ⟨rfl, by decide⟩

/-- C4: swap rejects a valid full partner: with bound 5 and the other
instance holding the five-character hello (a valid instance whose length
equals the bound), the guard fires and swap raises CapacityExceeded leaving
both instances unchanged, whereas the claim says same-bound swap always
succeeds and exchanges the contents. -/
theorem swap_raises_on_full_other_at_hello :
    swap 5 (['a'] : List Char) ['h', 'e', 'l', 'l', 'o']
      = (some (Err.lengthError exceededMsg), (['a'], ['h', 'e', 'l', 'l', 'o'])) := by
  decide

/-- C9: counterexample: the raised CapacityExceeded condition is the very
same value for two failing calls whose attempted lengths differ (6 and 7
against bound 5), so the condition cannot carry the attempted length (nor,
by the same token, the bound) as diagnostic data for the caller. -/
theorem capacity_error_identical_across_attempted_lengths :
    (assign_count 5 (['a', 'b', 'c'] : List Char) 6 'x').1
      = (assign_count 5 (['a', 'b', 'c'] : List Char) 7 'x').1
    ∧ (assign_count 5 (['a', 'b', 'c'] : List Char) 6 'x').1
      = some (Err.lengthError exceededMsg) := by
  decide

/-- C9 (amended): every CapacityExceeded condition raised by any modelled
public mutating operation is the bare length_error with the one fixed
message, carrying neither the attempted length nor the bound. -/
theorem capacity_error_message_is_fixed (B : ℕ) (s : List α) (op : Op α)
    (msg : String)
    (h : (applyOp B s op).1 = some (Err.lengthError msg)) : msg = exceededMsg := by
  cases op <;>
    simp only [applyOp, op_assign_same, op_assign_char, assign_checked,
      assign_count, op_assign_sv, assign_substr, reserve, swap, push_back,
      insert_count_ch, insert_list, insert_substr, insert_commit,
      insert_substr_commit, clear_contents, pop_back, erase_range] at h <;>
    (repeat' split at h) <;> simp_all

theorem capacity_error_message_is_fixed_witness : exceededMsg = exceededMsg :=
  capacity_error_message_is_fixed 5 (['a', 'b', 'c'] : List Char)
    (Op.assignCount 6 'x') exceededMsg (by decide)
